import Mathlib

/-!
# Strawberry-farm sensing node: the node intelligence core

A shallow embedding of the C++ headers under `firmware/include`:

* `muise_epistemic.h`  : `MuiseEpistemicKB` (the belief store),
* `muise_mesh.h`       : `MuiseMeshController` (the relevance router),
* `sensor_sim.h`       : `SensorSim` (the store-and-forward buffer),
* `power_mgmt.h`       : `PowerManager` (power states and battery voltage),
* `pahlevani_power.h`  : `PahlevaniPowerManager` (battery level with charging),
* `pahlevani_filters.h`: `PahlevaniFilter` (the second-order filter).

Conventions of the embedding.

* A C++ object is a structure holding its data members; a member function takes
  the object first and returns the new object (and the returned value, if any).
* `float` values are read as exact rationals (`ℚ`): a decimal literal such as
  `0.707f` is the rational `707/1000`.  Comparisons against `35.0f`, `10.0f`
  and `-80.0f` are exact on every finite float, NaN is outside the model.
* `std::rand()` is a hidden global generator: the value it returns is passed to
  the function that calls it as the argument `draw`.
* Lines written to `std::cout` are kept only for `SensorSim::bufferToFlash`,
  where they are the one trace of an accepted record; elsewhere they are
  dropped, as they carry no state.
-/

namespace StrawberryFarm

/-! ## `std::map<std::string, V>` -/

/-- An association list standing for `std::map<std::string, V>`: `assign` keeps at
most one entry per key and puts a new key at its place in the key order. -/
abbrev StdMap (V : Type) := List (String × V)

/-- The lookup `m.find(k)`: `none` stands for `m.end()`. -/
def StdMap.find {V : Type} : StdMap V → String → Option V
  | [], _ => none
  | (k', v) :: rest, k => if k = k' then some v else StdMap.find rest k

/-- The assignment `m[k] = v`: overwrite the entry of `k`, or insert one at the
place the key order gives it. -/
def StdMap.assign {V : Type} : StdMap V → String → V → StdMap V
  | [], k, v => [(k, v)]
  | (k', v') :: rest, k, v =>
    if k = k' then (k, v) :: rest
    else if k < k' then (k, v) :: (k', v') :: rest
    else (k', v') :: StdMap.assign rest k v

/-- The read access `m[k]`: the stored value, and the map itself, which gains a
value-initialised entry when `k` was absent. -/
def StdMap.index {V : Type} (dflt : V) (m : StdMap V) (k : String) : V × StdMap V :=
  match StdMap.find m k with
  | some v => (v, m)
  | none => (dflt, StdMap.assign m k dflt)

/-- The number of entries, `m.size()`. -/
def StdMap.size {V : Type} (m : StdMap V) : Nat := m.length

/-- The keys of the map, in the order an iteration visits them. -/
def StdMap.keys {V : Type} (m : StdMap V) : List String := m.map Prod.fst

/-! ## `muise_epistemic.h` -/

/-- The private `struct Belief` of `MuiseEpistemicKB`. -/
structure Belief where
  val : Bool
  knows : Bool
deriving DecidableEq, Repr

/-- A value-initialised `Belief`, what `beliefs[id]` creates for an absent id. -/
def Belief.zero : Belief := { val := false, knows := false }

/-- The class `MuiseEpistemicKB`: its one data member `beliefs`. -/
structure MuiseEpistemicKB where
  beliefs : StdMap Belief
deriving DecidableEq, Repr

namespace MuiseEpistemicKB

/-- A freshly constructed knowledge base: the map is empty. -/
def fresh : MuiseEpistemicKB := { beliefs := [] }

/-- The member `updateBelief(neighborId, state)`: `beliefs[neighborId] = {state, true}`. -/
def updateBelief (kb : MuiseEpistemicKB) (neighborId : String) (state : Bool) :
    MuiseEpistemicKB :=
  { beliefs := StdMap.assign kb.beliefs neighborId { val := state, knows := true } }

/-- The member `knowsWhether(neighborId)`: `false` when `find` reaches `end()`,
otherwise `beliefs[neighborId].knows`.  The function is not `const`, so the
object after the call is returned with the answer. -/
def knowsWhether (kb : MuiseEpistemicKB) (neighborId : String) : Bool × MuiseEpistemicKB :=
  match StdMap.find kb.beliefs neighborId with
  | none => (false, kb)
  | some _ =>
    let r := StdMap.index Belief.zero kb.beliefs neighborId
    (r.1.knows, { beliefs := r.2 })

/-- One call on the knowledge base. -/
inductive Call where
  | update (neighborId : String) (state : Bool)
  | query (neighborId : String)
deriving DecidableEq, Repr

/-- The object after one call; a query keeps the object `knowsWhether` leaves. -/
def step (kb : MuiseEpistemicKB) : Call → MuiseEpistemicKB
  | Call.update id x => kb.updateBelief id x
  | Call.query id => (kb.knowsWhether id).2

/-- The object after a sequence of calls. -/
def run (kb : MuiseEpistemicKB) (cs : List Call) : MuiseEpistemicKB :=
  cs.foldl step kb

/-- The ids a sequence of calls passes to `updateBelief`, in call order. -/
def updatedIds : List Call → List String
  | [] => []
  | Call.update id _ :: cs => id :: updatedIds cs
  | Call.query _ :: cs => updatedIds cs

end MuiseEpistemicKB

/-! ## `muise_mesh.h` -/

/-- The private `struct NodeState` of `MuiseMeshController`. -/
structure NodeState where
  id : String
  psr : ℚ
  knowsBufferState : Bool
deriving DecidableEq, Repr

/-- The class `MuiseMeshController`: the neighbour table and the node's own id. -/
structure MuiseMeshController where
  neighborTable : StdMap NodeState
  nodeId : String
deriving DecidableEq, Repr

namespace MuiseMeshController

/-- The constructor `MuiseMeshController(id)`. -/
def new (id : String) : MuiseMeshController := { neighborTable := [], nodeId := id }

/-- The member `updateNeighborLink(remoteId, rssi)`. -/
def updateNeighborLink (c : MuiseMeshController) (remoteId : String) (rssi : ℚ) :
    MuiseMeshController :=
  let psr : ℚ := if rssi > -80 then 99 / 100 else 65 / 100
  let entry : NodeState := ⟨remoteId, psr, true⟩
  ⟨StdMap.assign c.neighborTable remoteId entry, c.nodeId⟩

/-- The member `shouldRoutePacket(type, val)`; `draw` is the value `std::rand()`
returns when the last line calls it. -/
def shouldRoutePacket (_c : MuiseMeshController) (type : String) (val : ℚ) (draw : Nat) :
    Bool :=
  if type = "ALERT" ∨ val > 35 ∨ val < 10 then true
  else decide (draw % 100 < 80)

end MuiseMeshController

/-! ## `sensor_sim.h` -/

/-- The record `struct SensorData`. -/
structure SensorData where
  temperature : ℚ
  humidity : ℚ
  soilMoisture : ℚ
  par : ℚ
  ec : ℚ
  ph : ℚ
  co2 : ℚ
  batteryLevel : ℚ
  timestamp : Int
deriving DecidableEq, Repr

/-- The class `SensorSim`, reduced to the store-and-forward buffer `flashBuffer`
(a `std::vector<SensorData>`, front of the vector first). -/
structure SensorSim where
  flashBuffer : List SensorData
deriving DecidableEq, Repr

namespace SensorSim

/-- The constant member `MAX_BUFFER = 1000`. -/
def MAX_BUFFER : Nat := 1000

/-- A newly constructed `SensorSim`: the buffer is empty. -/
def new : SensorSim := { flashBuffer := [] }

/-- The line `bufferToFlash` writes to `std::cout` after it has stored a record. -/
def persistedLine (size : Nat) : String :=
  "[LITTLEFS] Data persisted to Flash. Buffer size: " ++ toString size

/-- What one call of `void bufferToFlash(SensorData data)` leaves behind: the
value handed back to the caller (the function is `void`, so the one value of
`Unit`), the object after the call, and the lines written to `std::cout`. -/
structure BufferToFlashResult where
  returned : Unit
  object : SensorSim
  stdout : List String
deriving DecidableEq, Repr

/-- The member `void bufferToFlash(SensorData data)`.  When the buffer is full the
body of the `if` is skipped: the object is unchanged and nothing is written. -/
def bufferToFlash (s : SensorSim) (data : SensorData) : BufferToFlashResult :=
  if s.flashBuffer.length < MAX_BUFFER then
    let buf := s.flashBuffer ++ [data]
    { returned := (), object := { flashBuffer := buf }, stdout := [persistedLine buf.length] }
  else { returned := (), object := s, stdout := [] }

/-- The member `hasBufferedData()`. -/
def hasBufferedData (s : SensorSim) : Bool := !s.flashBuffer.isEmpty

/-- The number of buffered records, `flashBuffer.size()`. -/
def size (s : SensorSim) : Nat := s.flashBuffer.length

/-- The member `popBufferedData()`: the front record and the object with that
record erased.  The source calls `front()` and `erase(begin())` without a check;
on an empty vector both are undefined behaviour, for which `none` stands. -/
def popBufferedData (s : SensorSim) : Option (SensorData × SensorSim) :=
  match s.flashBuffer with
  | [] => none
  | d :: rest => some (d, { flashBuffer := rest })

/-- One call on the buffer. -/
inductive Call where
  | buffer (data : SensorData)
  | pop
deriving DecidableEq, Repr

/-- Run a sequence of calls; `none` as soon as `popBufferedData` is called on an
empty buffer. -/
def run : SensorSim → List Call → Option SensorSim
  | s, [] => some s
  | s, Call.buffer d :: cs => run (bufferToFlash s d).object cs
  | s, Call.pop :: cs =>
    match popBufferedData s with
    | none => none
    | some (_, s') => run s' cs

/-- Call `bufferToFlash` on each record of a list, in order. -/
def bufferAll (s : SensorSim) (ds : List SensorData) : SensorSim :=
  ds.foldl (fun acc d => (bufferToFlash acc d).object) s

/-- Call `popBufferedData` `n` times: the records returned, in the order of the
calls, and the object left. -/
def popMany : SensorSim → Nat → Option (List SensorData × SensorSim)
  | s, 0 => some ([], s)
  | s, n + 1 =>
    match popBufferedData s with
    | none => none
    | some (d, s') =>
      match popMany s' n with
      | none => none
      | some (ds, s'') => some (d :: ds, s'')

/-- A record with every reading zero except the temperature, stamped `t`. -/
def sampleAt (temperature : ℚ) (t : Int) : SensorData :=
  { temperature := temperature, humidity := 0, soilMoisture := 0, par := 0, ec := 0,
    ph := 0, co2 := 0, batteryLevel := 100, timestamp := t }

end SensorSim

/-! ## `power_mgmt.h` -/

/-- The enumeration `PowerState`. -/
inductive PowerState where
  | SYSTEM_ON_LP
  | SYSTEM_ON_CL
  | SYSTEM_OFF
  | ACTIVE_RADIO
deriving DecidableEq, Repr

/-- The class `PowerManager`. -/
structure PowerManager where
  currentState : PowerState
  batteryVoltage : ℚ
deriving DecidableEq, Repr

namespace PowerManager

/-- The constructor: `SYSTEM_ON_LP` and 3.8 V. -/
def new : PowerManager := { currentState := PowerState.SYSTEM_ON_LP, batteryVoltage := 38 / 10 }

/-- The local `currentDraw` that `enterState` computes for its log line (amperes). -/
def currentDraw : PowerState → ℚ
  | PowerState.SYSTEM_ON_LP => 25 / 10000000
  | PowerState.SYSTEM_ON_CL => 15 / 1000000
  | PowerState.SYSTEM_OFF => 9 / 10000000
  | PowerState.ACTIVE_RADIO => 85 / 10000

/-- The member `enterState(state)`: stores the state; `currentDraw` only reaches
the log line. -/
def enterState (p : PowerManager) (state : PowerState) : PowerManager :=
  { p with currentState := state }

/-- The member `getBatteryPercent()`. -/
def getBatteryPercent (p : PowerManager) : ℚ :=
  (p.batteryVoltage - 3) / (42 / 10 - 3) * 100

/-- The member `simulateChargeDepletion(hours)`. -/
def simulateChargeDepletion (p : PowerManager) (hours : ℚ) : PowerManager :=
  { p with batteryVoltage := p.batteryVoltage - 1 / 1000 * hours }

/-- Call `simulateChargeDepletion` once per element of a list, in order. -/
def depleteAll (p : PowerManager) (hs : List ℚ) : PowerManager :=
  hs.foldl simulateChargeDepletion p

end PowerManager

/-! ## `pahlevani_power.h` -/

/-- The class `PahlevaniPowerManager`. -/
structure PahlevaniPowerManager where
  batteryLevel : ℚ
  dcBusVoltage : ℚ
  isWptActive : Bool
  frequencyMod : ℚ
deriving DecidableEq, Repr

namespace PahlevaniPowerManager

/-- The constructor. -/
def new : PahlevaniPowerManager :=
  { batteryLevel := 100, dcBusVoltage := 33 / 10, isWptActive := false, frequencyMod := 100 }

/-- The member `updateFrequencyModulation(loadCurrent)`. -/
def updateFrequencyModulation (p : PahlevaniPowerManager) (loadCurrent : ℚ) :
    PahlevaniPowerManager :=
  { p with frequencyMod := 100 + loadCurrent * (15 / 10) }

/-- The member `handleWptProximity(nearCharger)`. -/
def handleWptProximity (p : PahlevaniPowerManager) (nearCharger : Bool) :
    PahlevaniPowerManager :=
  let p1 := { p with isWptActive := nearCharger }
  if p1.isWptActive then { p1 with batteryLevel := min 100 (p1.batteryLevel + 1 / 10) }
  else p1

/-- The member `getBattery()`. -/
def getBattery (p : PahlevaniPowerManager) : ℚ := p.batteryLevel

/-- The member `simulateDischarge(usage)`. -/
def simulateDischarge (p : PahlevaniPowerManager) (usage : ℚ) : PahlevaniPowerManager :=
  let efficiencyFactor : ℚ := 98 / 100
  { p with batteryLevel := p.batteryLevel - usage / efficiencyFactor }

/-- One call on the power manager. -/
inductive Call where
  | wpt (nearCharger : Bool)
  | discharge (usage : ℚ)
deriving DecidableEq, Repr

/-- The object after one call. -/
def step (p : PahlevaniPowerManager) : Call → PahlevaniPowerManager
  | Call.wpt b => handleWptProximity p b
  | Call.discharge u => simulateDischarge p u

/-- The object after a sequence of calls. -/
def run (p : PahlevaniPowerManager) (cs : List Call) : PahlevaniPowerManager :=
  cs.foldl step p

/-- A call that discharges does so by a non-negative usage. -/
def Call.nonneg : Call → Prop
  | Call.wpt _ => True
  | Call.discharge u => 0 ≤ u

end PahlevaniPowerManager

/-! ## `pahlevani_filters.h` -/

/-- The class `PahlevaniFilter`; `theta0` and `theta1` are `theta[0]` and `theta[1]`. -/
structure PahlevaniFilter where
  zeta : ℚ
  omega_n : ℚ
  theta0 : ℚ
  theta1 : ℚ
deriving DecidableEq, Repr

namespace PahlevaniFilter

/-- The constructor: `zeta = 0.707`, `omega_n = 60`, both weights zero. -/
def new : PahlevaniFilter := { zeta := 707 / 1000, omega_n := 60, theta0 := 0, theta1 := 0 }

/-- The member `filter(input, dt)`: the returned value and the object after the
call.  The three statements run in the order of the source, so `theta[1]` is
updated from the `error` computed before `theta[0]` changed. -/
def filter (f : PahlevaniFilter) (input dt : ℚ) : ℚ × PahlevaniFilter :=
  let error := input - f.theta0
  let theta0 := f.theta0 + (f.theta1 + 2 * f.zeta * f.omega_n * error) * dt
  let theta1 := f.theta1 + -(f.omega_n * f.omega_n * error) * dt
  (theta0, { f with theta0 := theta0, theta1 := theta1 })

/-- The object after `k` calls `filter(c, dt)` with the same input and step. -/
def feedConstant (f : PahlevaniFilter) (c dt : ℚ) : Nat → PahlevaniFilter
  | 0 => f
  | k + 1 => (filter (feedConstant f c dt k) c dt).2

/-- The value returned by call number `k + 1` of `filter(c, dt)`. -/
def constantOutput (f : PahlevaniFilter) (c dt : ℚ) (k : Nat) : ℚ :=
  (filter (feedConstant f c dt k) c dt).1

end PahlevaniFilter

/-! ## Theorems -/

theorem StdMap.find_assign_self {V : Type} (m : StdMap V) (k : String) (v : V) :
    StdMap.find (StdMap.assign m k v) k = some v := by
  induction m with
  | nil => simp [StdMap.assign, StdMap.find]
  | cons hd tl ih =>
    obtain ⟨k', v'⟩ := hd
    by_cases h1 : k = k'
    · simp [StdMap.assign, StdMap.find, h1]
    · by_cases h2 : k < k'
      · simp [StdMap.assign, StdMap.find, h1, h2]
      · simp [StdMap.assign, StdMap.find, h1, h2, ih]

theorem belief_known_after_update (kb : MuiseEpistemicKB) (id : String) (x : Bool) :
    ((kb.updateBelief id x).knowsWhether id).1 = true := by
  simp [MuiseEpistemicKB.knowsWhether, MuiseEpistemicKB.updateBelief, StdMap.index,
    StdMap.find_assign_self]

/-- C1. Belief asymmetry: a fresh knowledge base answers `knowsWhether(id) = false`
for every id, and in every state, after `updateBelief(id, x)` the query
`knowsWhether(id)` answers `true`, whatever `x` is. -/
theorem belief_asymmetry :
    (∀ id : String, (MuiseEpistemicKB.fresh.knowsWhether id).1 = false) ∧
    (∀ (kb : MuiseEpistemicKB) (id : String) (x : Bool),
      ((kb.updateBelief id x).knowsWhether id).1 = true) := by
  exact ⟨fun id => rfl, belief_known_after_update⟩

/-- C2. Alert override: `shouldRoutePacket("ALERT", val)` is `true` for every
controller (whatever its neighbour table holds), every sample value and every
value of the random draw. -/
theorem alert_override (c : MuiseMeshController) (val : ℚ) (draw : Nat) :
    c.shouldRoutePacket "ALERT" val draw = true := by
  simp [MuiseMeshController.shouldRoutePacket]

/-! ### The store-and-forward buffer -/

theorem SensorSim.bufferToFlash_object (s : SensorSim) (d : SensorData) :
    (s.bufferToFlash d).object =
      if s.flashBuffer.length < SensorSim.MAX_BUFFER then ⟨s.flashBuffer ++ [d]⟩ else s := by
  unfold SensorSim.bufferToFlash
  split <;> rfl

theorem SensorSim.bufferToFlash_size_le (s : SensorSim) (d : SensorData)
    (h : s.size ≤ SensorSim.MAX_BUFFER) :
    (s.bufferToFlash d).object.size ≤ SensorSim.MAX_BUFFER := by
  rw [SensorSim.bufferToFlash_object]
  unfold SensorSim.size at *
  split
  · simp only [List.length_append, List.length_singleton]
    omega
  · exact h

theorem SensorSim.popBufferedData_size_le (s s' : SensorSim) (d : SensorData)
    (h : s.popBufferedData = some (d, s')) : s'.size ≤ s.size := by
  obtain ⟨buf⟩ := s
  cases buf with
  | nil => simp [SensorSim.popBufferedData] at h
  | cons x rest =>
    simp only [SensorSim.popBufferedData, Option.some.injEq, Prod.mk.injEq] at h
    rw [← h.2]
    simp [SensorSim.size]

theorem SensorSim.run_size_le (cs : List SensorSim.Call) :
    ∀ s s' : SensorSim, s.size ≤ SensorSim.MAX_BUFFER → SensorSim.run s cs = some s' →
      s'.size ≤ SensorSim.MAX_BUFFER := by
  induction cs with
  | nil =>
    intro s s' hs h
    simp only [SensorSim.run, Option.some.injEq] at h
    rw [← h]; exact hs
  | cons c cs ih =>
    intro s s' hs h
    cases c with
    | buffer d =>
      simp only [SensorSim.run] at h
      exact ih _ _ (SensorSim.bufferToFlash_size_le s d hs) h
    | pop =>
      simp only [SensorSim.run] at h
      cases hp : s.popBufferedData with
      | none => simp [hp] at h
      | some r =>
        obtain ⟨d, s1⟩ := r
        simp only [hp] at h
        exact ih _ _ (le_trans (SensorSim.popBufferedData_size_le s s1 d hp) hs) h

theorem SensorSim.bufferAll_flashBuffer (ds : List SensorData) :
    ∀ s : SensorSim, (s.bufferAll ds).flashBuffer =
      s.flashBuffer ++ ds.take (SensorSim.MAX_BUFFER - s.flashBuffer.length) := by
  induction ds with
  | nil => intro s; simp [SensorSim.bufferAll]
  | cons d ds ih =>
    intro s
    have hstep : s.bufferAll (d :: ds) = (s.bufferToFlash d).object.bufferAll ds := rfl
    rw [hstep, ih, SensorSim.bufferToFlash_object]
    by_cases hlt : s.flashBuffer.length < SensorSim.MAX_BUFFER
    · have hsub : SensorSim.MAX_BUFFER - s.flashBuffer.length =
          (SensorSim.MAX_BUFFER - (s.flashBuffer.length + 1)) + 1 := by omega
      simp only [hlt, if_true, List.length_append, List.length_singleton]
      rw [hsub, List.take_succ_cons]
      simp
    · have hzero : SensorSim.MAX_BUFFER - s.flashBuffer.length = 0 := by omega
      simp [hlt, hzero]

theorem SensorSim.bufferAll_new (ds : List SensorData) :
    SensorSim.new.bufferAll ds = ⟨ds.take SensorSim.MAX_BUFFER⟩ := by
  have h := SensorSim.bufferAll_flashBuffer ds SensorSim.new
  cases hs : SensorSim.new.bufferAll ds with
  | mk buf =>
    rw [hs] at h
    simp only [SensorSim.new, List.nil_append, List.length_nil, Nat.sub_zero] at h
    simp [h]

theorem SensorSim.popMany_drop (i : Nat) :
    ∀ rs : List SensorData, i ≤ rs.length →
      SensorSim.popMany ⟨rs⟩ i = some (rs.take i, ⟨rs.drop i⟩) := by
  induction i with
  | zero => intro rs _; simp [SensorSim.popMany]
  | succ n ih =>
    intro rs h
    cases rs with
    | nil => simp at h
    | cons r rs =>
      have hn : n ≤ rs.length := by simpa using h
      simp [SensorSim.popMany, SensorSim.popBufferedData, ih rs hn]

/-- C3, as stated, fails: the buffer holds `MAX_BUFFER` records after `MAX_BUFFER`
calls, and call number `MAX_BUFFER + 1` hands the caller the same (`void`) value
as an accepted call does and writes no line: no function of what the caller
receives tells the rejected record from an accepted one. -/
theorem overflow_is_not_reported :
    (SensorSim.new.bufferAll
        (List.replicate SensorSim.MAX_BUFFER (SensorSim.sampleAt 22 0))).size
      = SensorSim.MAX_BUFFER ∧
    ((SensorSim.new.bufferAll
        (List.replicate SensorSim.MAX_BUFFER (SensorSim.sampleAt 22 0))).bufferToFlash
          (SensorSim.sampleAt 23 1)).stdout = [] ∧
    ¬ ∃ report : Unit → Bool,
        report ((SensorSim.new.bufferAll
          (List.replicate SensorSim.MAX_BUFFER (SensorSim.sampleAt 22 0))).bufferToFlash
            (SensorSim.sampleAt 23 1)).returned = true ∧
        report (SensorSim.new.bufferToFlash (SensorSim.sampleAt 23 1)).returned = false := by
  have hfull : SensorSim.new.bufferAll
      (List.replicate SensorSim.MAX_BUFFER (SensorSim.sampleAt 22 0)) =
      ⟨List.replicate SensorSim.MAX_BUFFER (SensorSim.sampleAt 22 0)⟩ := by
    rw [SensorSim.bufferAll_new, List.take_of_length_le (le_of_eq (List.length_replicate _ _))]
  rw [hfull]
  refine ⟨List.length_replicate _ _, ?_, ?_⟩
  · have hlen : ¬ (List.replicate SensorSim.MAX_BUFFER (SensorSim.sampleAt 22 0)).length
        < SensorSim.MAX_BUFFER := by
      rw [List.length_replicate]; exact lt_irrefl _
    unfold SensorSim.bufferToFlash
    rw [if_neg hlen]
  · rintro ⟨report, h1, h2⟩
    have key : ∀ u : Unit, report u = report () := fun _ => rfl
    have h3 := (key _).symm.trans h1
    have h4 := (key _).symm.trans h2
    rw [h3] at h4
    exact Bool.noConfusion h4

/-- C3, amended. Starting from an empty buffer, after any sequence of
`bufferToFlash` and `popBufferedData` calls (no pop on an empty buffer) the size
is at most `MAX_BUFFER`; after `MAX_BUFFER` records `ds` and one more record `d`
the size is exactly `MAX_BUFFER`, the buffer holds `ds` unchanged, and the last
call left the object as it was, returned nothing and wrote no line. -/
theorem buffer_bound (cs : List SensorSim.Call) (s : SensorSim) (ds : List SensorData)
    (d : SensorData) (hrun : SensorSim.run SensorSim.new cs = some s)
    (hlen : ds.length = SensorSim.MAX_BUFFER) :
    s.size ≤ SensorSim.MAX_BUFFER ∧
    (SensorSim.new.bufferAll (ds ++ [d])).size = SensorSim.MAX_BUFFER ∧
    (SensorSim.new.bufferAll (ds ++ [d])).flashBuffer = ds ∧
    (SensorSim.new.bufferAll ds).bufferToFlash d =
      { returned := (), object := SensorSim.new.bufferAll ds, stdout := [] } := by
  have h1 : SensorSim.new.bufferAll (ds ++ [d]) = ⟨ds⟩ := by
    rw [SensorSim.bufferAll_new, ← hlen, List.take_left]
  have h2 : SensorSim.new.bufferAll ds = ⟨ds⟩ := by
    rw [SensorSim.bufferAll_new, ← hlen, List.take_length]
  refine ⟨SensorSim.run_size_le cs _ _ (by simp [SensorSim.size, SensorSim.new]) hrun, ?_, ?_, ?_⟩
  · rw [h1]; exact hlen
  · rw [h1]
  · rw [h2]
    simp [SensorSim.bufferToFlash, hlen]

/-- C3, amended, at a concrete input: two records in, one out, and a buffer filled
with `MAX_BUFFER` copies of one record that is offered another. -/
theorem buffer_bound_witness :
    (SensorSim.mk [SensorSim.sampleAt 23 1]).size ≤ SensorSim.MAX_BUFFER ∧
    (SensorSim.new.bufferAll
      (List.replicate SensorSim.MAX_BUFFER (SensorSim.sampleAt 22 0) ++
        [SensorSim.sampleAt 23 1])).size = SensorSim.MAX_BUFFER ∧
    (SensorSim.new.bufferAll
      (List.replicate SensorSim.MAX_BUFFER (SensorSim.sampleAt 22 0) ++
        [SensorSim.sampleAt 23 1])).flashBuffer =
      List.replicate SensorSim.MAX_BUFFER (SensorSim.sampleAt 22 0) ∧
    (SensorSim.new.bufferAll
      (List.replicate SensorSim.MAX_BUFFER (SensorSim.sampleAt 22 0))).bufferToFlash
        (SensorSim.sampleAt 23 1) =
      { returned := (),
        object := SensorSim.new.bufferAll
          (List.replicate SensorSim.MAX_BUFFER (SensorSim.sampleAt 22 0)),
        stdout := [] } :=
  buffer_bound
    [SensorSim.Call.buffer (SensorSim.sampleAt 22 0),
      SensorSim.Call.buffer (SensorSim.sampleAt 23 1), SensorSim.Call.pop]
    ⟨[SensorSim.sampleAt 23 1]⟩
    (List.replicate SensorSim.MAX_BUFFER (SensorSim.sampleAt 22 0))
    (SensorSim.sampleAt 23 1) rfl (List.length_replicate _ _)

/-- C4. FIFO order: after the records `rs` (at most `MAX_BUFFER` of them) went
into an empty buffer, the first `i` calls of `popBufferedData` return the first
`i` records in order, and the next call returns record number `i` (counted from
zero) and leaves the records after it, in order. -/
theorem fifo_order (rs : List SensorData) (i : Nat)
    (hk : rs.length ≤ SensorSim.MAX_BUFFER) (hi : i < rs.length) :
    SensorSim.popMany (SensorSim.new.bufferAll rs) i = some (rs.take i, ⟨rs.drop i⟩) ∧
    SensorSim.popBufferedData ⟨rs.drop i⟩ = some (rs.get ⟨i, hi⟩, ⟨rs.drop (i + 1)⟩) := by
  constructor
  · rw [SensorSim.bufferAll_new, List.take_of_length_le hk]
    exact SensorSim.popMany_drop i rs (le_of_lt hi)
  · rw [List.drop_eq_getElem_cons hi]
    simp [SensorSim.popBufferedData]

/-- C4 at the records A, B, C: two dequeues yield A then B and leave C alone,
which the third dequeue returns. -/
theorem fifo_order_witness :
    SensorSim.popMany
        (SensorSim.new.bufferAll
          [SensorSim.sampleAt 21 1, SensorSim.sampleAt 22 2, SensorSim.sampleAt 23 3]) 2
      = some ([SensorSim.sampleAt 21 1, SensorSim.sampleAt 22 2], ⟨[SensorSim.sampleAt 23 3]⟩) ∧
    SensorSim.popBufferedData ⟨[SensorSim.sampleAt 23 3]⟩
      = some (SensorSim.sampleAt 23 3, ⟨[]⟩) :=
  fifo_order [SensorSim.sampleAt 21 1, SensorSim.sampleAt 22 2, SensorSim.sampleAt 23 3] 2
    (by decide) (by decide)

/-! ### Battery accounting -/

theorem PowerManager.percent_mono (p q : PowerManager)
    (h : p.batteryVoltage ≤ q.batteryVoltage) :
    p.getBatteryPercent ≤ q.getBatteryPercent := by
  unfold PowerManager.getBatteryPercent
  have hpos : (0 : ℚ) < 42 / 10 - 3 := by norm_num
  have hdiv : (p.batteryVoltage - 3) / (42 / 10 - 3) ≤ (q.batteryVoltage - 3) / (42 / 10 - 3) :=
    div_le_div_of_nonneg_right (by linarith) (le_of_lt hpos)
  linarith

theorem PowerManager.depletion_voltage_le (p : PowerManager) (h : ℚ) (hh : 0 ≤ h) :
    (p.simulateChargeDepletion h).batteryVoltage ≤ p.batteryVoltage := by
  simp only [PowerManager.simulateChargeDepletion]
  linarith [mul_nonneg (by norm_num : (0 : ℚ) ≤ 1 / 1000) hh]

theorem PowerManager.depleteAll_voltage_le (hs : List ℚ) :
    ∀ p : PowerManager, (∀ x ∈ hs, 0 ≤ x) →
      (p.depleteAll hs).batteryVoltage ≤ p.batteryVoltage := by
  induction hs with
  | nil => intro p _; exact le_refl _
  | cons h hs ih =>
    intro p hall
    have hstep : p.depleteAll (h :: hs) = (p.simulateChargeDepletion h).depleteAll hs := rfl
    rw [hstep]
    exact le_trans (ih _ (fun x hx => hall x (List.mem_cons_of_mem _ hx)))
      (PowerManager.depletion_voltage_le p h (hall h (List.mem_cons_self _ _)))

/-- C5. Battery monotonicity under depletion: in every state, after any sequence
`hs` of `simulateChargeDepletion` calls with non-negative elapsed times, one more
call with `h >= 0` does not raise `getBatteryPercent()`, and the value after the
whole sequence is at most the value before it. -/
theorem battery_monotone_under_depletion (p : PowerManager) (hs : List ℚ) (h : ℚ)
    (hhs : ∀ x ∈ hs, 0 ≤ x) (hh : 0 ≤ h) :
    ((p.depleteAll hs).simulateChargeDepletion h).getBatteryPercent
      ≤ (p.depleteAll hs).getBatteryPercent ∧
    (p.depleteAll hs).getBatteryPercent ≤ p.getBatteryPercent :=
  ⟨PowerManager.percent_mono _ _ (PowerManager.depletion_voltage_le _ h hh),
    PowerManager.percent_mono _ _ (PowerManager.depleteAll_voltage_le hs p hhs)⟩

/-- C5 at the initial 3.8 V cell, depleted for 10 h and 0 h, then for 24 h. -/
theorem battery_monotone_under_depletion_witness :
    ((PowerManager.new.depleteAll [10, 0]).simulateChargeDepletion 24).getBatteryPercent
      ≤ (PowerManager.new.depleteAll [10, 0]).getBatteryPercent ∧
    (PowerManager.new.depleteAll [10, 0]).getBatteryPercent
      ≤ PowerManager.new.getBatteryPercent :=
  battery_monotone_under_depletion PowerManager.new [10, 0] 24
    (by intro x hx; simp at hx; rcases hx with rfl | rfl <;> norm_num) (by norm_num)

theorem PahlevaniPowerManager.step_le (p : PahlevaniPowerManager)
    (c : PahlevaniPowerManager.Call) (hc : c.nonneg) (hp : p.batteryLevel ≤ 100) :
    (p.step c).batteryLevel ≤ 100 := by
  cases c with
  | wpt b =>
    cases b with
    | false => simpa [PahlevaniPowerManager.step, PahlevaniPowerManager.handleWptProximity] using hp
    | true => simp [PahlevaniPowerManager.step, PahlevaniPowerManager.handleWptProximity]
  | discharge u =>
    have hu : (0 : ℚ) ≤ u := hc
    have hq : (0 : ℚ) ≤ u / (98 / 100) := div_nonneg hu (by norm_num)
    simp only [PahlevaniPowerManager.step, PahlevaniPowerManager.simulateDischarge]
    linarith

theorem PahlevaniPowerManager.run_le (cs : List PahlevaniPowerManager.Call) :
    ∀ p : PahlevaniPowerManager, (∀ c ∈ cs, c.nonneg) → p.batteryLevel ≤ 100 →
      (p.run cs).batteryLevel ≤ 100 := by
  induction cs with
  | nil => intro p _ hp; exact hp
  | cons c cs ih =>
    intro p hall hp
    have hstep : p.run (c :: cs) = (p.step c).run cs := rfl
    rw [hstep]
    exact ih _ (fun x hx => hall x (List.mem_cons_of_mem _ hx))
      (PahlevaniPowerManager.step_le p c (hall c (List.mem_cons_self _ _)) hp)

/-- C6. Charge never overshoots 100%: from a newly constructed
`PahlevaniPowerManager`, after any sequence of `handleWptProximity(b)` and
`simulateDischarge(u)` with `u >= 0`, `getBattery() <= 100`; in every state
`handleWptProximity(true)` sets the level to `min(100, level + 0.1)` and
`handleWptProximity(false)` leaves it unchanged. -/
theorem charge_never_overshoots (cs : List PahlevaniPowerManager.Call)
    (p : PahlevaniPowerManager) (hcs : ∀ c ∈ cs, c.nonneg) :
    (PahlevaniPowerManager.new.run cs).getBattery ≤ 100 ∧
    (p.handleWptProximity true).getBattery = min 100 (p.getBattery + 1 / 10) ∧
    (p.handleWptProximity false).getBattery = p.getBattery :=
  ⟨PahlevaniPowerManager.run_le cs _ hcs (le_refl _),
    by simp [PahlevaniPowerManager.handleWptProximity, PahlevaniPowerManager.getBattery],
    by simp [PahlevaniPowerManager.handleWptProximity, PahlevaniPowerManager.getBattery]⟩

/-- C6 at a concrete run: charge at 100%, discharge by 5, charge again, move away. -/
theorem charge_never_overshoots_witness :
    (PahlevaniPowerManager.new.run
      [PahlevaniPowerManager.Call.wpt true, PahlevaniPowerManager.Call.discharge 5,
        PahlevaniPowerManager.Call.wpt true, PahlevaniPowerManager.Call.wpt false]).getBattery
      ≤ 100 ∧
    ((PahlevaniPowerManager.new.simulateDischarge 5).handleWptProximity true).getBattery =
      min 100 ((PahlevaniPowerManager.new.simulateDischarge 5).getBattery + 1 / 10) ∧
    ((PahlevaniPowerManager.new.simulateDischarge 5).handleWptProximity false).getBattery =
      (PahlevaniPowerManager.new.simulateDischarge 5).getBattery :=
  charge_never_overshoots
    [PahlevaniPowerManager.Call.wpt true, PahlevaniPowerManager.Call.discharge 5,
      PahlevaniPowerManager.Call.wpt true, PahlevaniPowerManager.Call.wpt false]
    (PahlevaniPowerManager.new.simulateDischarge 5)
    (by
      intro c hc
      simp only [List.mem_cons, List.mem_singleton, List.not_mem_nil, or_false] at hc
      rcases hc with rfl | rfl | rfl | rfl
      · trivial
      · show (0 : ℚ) ≤ 5
        norm_num
      · trivial
      · trivial)

/-! ### The filter -/

theorem PahlevaniFilter.feedConstant_params (c dt : ℚ) (k : Nat) :
    (PahlevaniFilter.new.feedConstant c dt k).zeta = 707 / 1000 ∧
    (PahlevaniFilter.new.feedConstant c dt k).omega_n = 60 := by
  induction k with
  | zero => exact ⟨rfl, rfl⟩
  | succ k ih => exact ih

/-- The recurrence of the tracking error `c - theta[0]` and of `theta[1]` under a
constant input, for the default constants. -/
theorem PahlevaniFilter.feedConstant_step (c dt : ℚ) (k : Nat) :
    c - (PahlevaniFilter.new.feedConstant c dt (k + 1)).theta0 =
      (1 - 2 * (707 / 1000) * 60 * dt) * (c - (PahlevaniFilter.new.feedConstant c dt k).theta0)
        - dt * (PahlevaniFilter.new.feedConstant c dt k).theta1 ∧
    (PahlevaniFilter.new.feedConstant c dt (k + 1)).theta1 =
      (PahlevaniFilter.new.feedConstant c dt k).theta1
        - 3600 * dt * (c - (PahlevaniFilter.new.feedConstant c dt k).theta0) := by
  obtain ⟨hz, hw⟩ := PahlevaniFilter.feedConstant_params c dt k
  simp only [PahlevaniFilter.feedConstant, PahlevaniFilter.filter, hz, hw]
  constructor <;> ring

theorem PahlevaniFilter.constantOutput_eq (f : PahlevaniFilter) (c dt : ℚ) (k : Nat) :
    f.constantOutput c dt k = (f.feedConstant c dt (k + 1)).theta0 := rfl

/-- From the first call on the error is non-negative and `theta[1]` has run below
`-omega_n^2 * dt * c`. -/
theorem PahlevaniFilter.error_nonneg (c dt : ℚ) (hc : 0 < c) (hdt : 0 < dt)
    (hsmall : 2 * (707 / 1000) * 60 * dt ≤ 1) (k : Nat) :
    0 ≤ c - (PahlevaniFilter.new.feedConstant c dt (k + 1)).theta0 ∧
    (PahlevaniFilter.new.feedConstant c dt (k + 1)).theta1 ≤ -(3600 * dt * c) := by
  induction k with
  | zero =>
    obtain ⟨h0, h1⟩ := PahlevaniFilter.feedConstant_step c dt 0
    have e0 : (PahlevaniFilter.new.feedConstant c dt 0).theta0 = 0 := rfl
    have e1 : (PahlevaniFilter.new.feedConstant c dt 0).theta1 = 0 := rfl
    rw [e0, e1] at h0 h1
    rw [h0, h1]
    constructor
    · have : 0 ≤ (1 - 2 * (707 / 1000) * 60 * dt) * c :=
        mul_nonneg (by linarith) (le_of_lt hc)
      linarith
    · linarith
  | succ k ih =>
    obtain ⟨hx, hy⟩ := ih
    obtain ⟨h0, h1⟩ := PahlevaniFilter.feedConstant_step c dt (k + 1)
    rw [h0, h1]
    have hdc : 0 < 3600 * dt * c := by positivity
    constructor
    · have t1 : 0 ≤ (1 - 2 * (707 / 1000) * 60 * dt) *
          (c - (PahlevaniFilter.new.feedConstant c dt (k + 1)).theta0) :=
        mul_nonneg (by linarith) hx
      have t2 : 0 ≤ dt * -(PahlevaniFilter.new.feedConstant c dt (k + 1)).theta1 :=
        mul_nonneg (le_of_lt hdt) (by linarith)
      linarith
    · have t3 : 0 ≤ 3600 * dt * (c - (PahlevaniFilter.new.feedConstant c dt (k + 1)).theta0) :=
        mul_nonneg (by positivity) hx
      linarith

/-- From the second call on the error is at least `omega_n^2 * dt^2 * c`, and
`theta[1]` falls by at least `omega_n^2 * dt` times that much with every call. -/
theorem PahlevaniFilter.error_floor (c dt : ℚ) (hc : 0 < c) (hdt : 0 < dt)
    (hsmall : 2 * (707 / 1000) * 60 * dt ≤ 1) (n : Nat) :
    3600 * dt ^ 2 * c ≤ c - (PahlevaniFilter.new.feedConstant c dt (n + 2)).theta0 ∧
    (PahlevaniFilter.new.feedConstant c dt (n + 2)).theta1 ≤
      -(3600 * dt * c) - n * (3600 * dt * (3600 * dt ^ 2 * c)) := by
  have hδ : 0 < 3600 * dt ^ 2 * c := by positivity
  induction n with
  | zero =>
    obtain ⟨hx, hy⟩ := PahlevaniFilter.error_nonneg c dt hc hdt hsmall 0
    obtain ⟨h0, h1⟩ := PahlevaniFilter.feedConstant_step c dt 1
    rw [h0, h1]
    have t1 : 0 ≤ (1 - 2 * (707 / 1000) * 60 * dt) *
        (c - (PahlevaniFilter.new.feedConstant c dt 1).theta0) :=
      mul_nonneg (by linarith) hx
    have t2 : dt * (3600 * dt * c) ≤ dt * -(PahlevaniFilter.new.feedConstant c dt 1).theta1 :=
      mul_le_mul_of_nonneg_left (by linarith) (le_of_lt hdt)
    have t3 : 0 ≤ 3600 * dt * (c - (PahlevaniFilter.new.feedConstant c dt 1).theta0) :=
      mul_nonneg (by positivity) hx
    constructor
    · nlinarith
    · simp only [Nat.cast_zero, zero_mul, sub_zero]
      linarith
  | succ n ih =>
    obtain ⟨hx, hy⟩ := ih
    obtain ⟨h0, h1⟩ := PahlevaniFilter.feedConstant_step c dt (n + 2)
    rw [h0, h1]
    have hn : (0 : ℚ) ≤ n := Nat.cast_nonneg n
    have t1 : 0 ≤ (1 - 2 * (707 / 1000) * 60 * dt) *
        (c - (PahlevaniFilter.new.feedConstant c dt (n + 2)).theta0) :=
      mul_nonneg (by linarith) (le_trans (le_of_lt hδ) hx)
    have t2 : dt * (3600 * dt * c + n * (3600 * dt * (3600 * dt ^ 2 * c))) ≤
        dt * -(PahlevaniFilter.new.feedConstant c dt (n + 2)).theta1 :=
      mul_le_mul_of_nonneg_left (by linarith) (le_of_lt hdt)
    have t3 : 3600 * dt * (3600 * dt ^ 2 * c) ≤
        3600 * dt * (c - (PahlevaniFilter.new.feedConstant c dt (n + 2)).theta0) :=
      mul_le_mul_of_nonneg_left hx (by positivity)
    have t4 : 0 ≤ dt * (n * (3600 * dt * (3600 * dt ^ 2 * c))) := by positivity
    constructor
    · nlinarith
    · push_cast
      linarith

/-- C7. The code does not converge: for the default filter, every constant input
`c > 0` and every step `dt > 0` with `2 * zeta * omega_n * dt <= 1`, the distance
between `c` and the value returned by any call after the first is at least
`omega_n^2 * dt^2 * c`, and the distance at call `k + 3` is at least
`(1 + k * omega_n^2 * dt^2)` times that, so it grows without bound. -/
theorem filter_error_grows_on_constant_input (c dt : ℚ) (k : Nat) (hc : 0 < c)
    (hdt : 0 < dt) (hsmall : 2 * (707 / 1000) * 60 * dt ≤ 1) :
    3600 * dt ^ 2 * c ≤ |c - PahlevaniFilter.new.constantOutput c dt (k + 1)| ∧
    3600 * dt ^ 2 * c * (1 + k * (3600 * dt ^ 2))
      ≤ |c - PahlevaniFilter.new.constantOutput c dt (k + 2)| := by
  obtain ⟨hx, hy⟩ := PahlevaniFilter.error_floor c dt hc hdt hsmall k
  have hδ : 0 < 3600 * dt ^ 2 * c := by positivity
  constructor
  · rw [PahlevaniFilter.constantOutput_eq]
    exact le_trans hx (le_abs_self _)
  · rw [PahlevaniFilter.constantOutput_eq]
    refine le_trans ?_ (le_abs_self _)
    obtain ⟨h0, _⟩ := PahlevaniFilter.feedConstant_step c dt (k + 2)
    rw [h0]
    have t1 : 0 ≤ (1 - 2 * (707 / 1000) * 60 * dt) *
        (c - (PahlevaniFilter.new.feedConstant c dt (k + 2)).theta0) :=
      mul_nonneg (by linarith) (le_trans (le_of_lt hδ) hx)
    have t2 : dt * (3600 * dt * c + k * (3600 * dt * (3600 * dt ^ 2 * c))) ≤
        dt * -(PahlevaniFilter.new.feedConstant c dt (k + 2)).theta1 :=
      mul_le_mul_of_nonneg_left (by linarith) (le_of_lt hdt)
    nlinarith

/-- C7 at the input `c = 1` with `dt = 1/1000`: call 100002 returns a value at least
0.0036 away from the input, and call 100003 one at least 1.2996 away, further than
the filter was before its first call. -/
theorem filter_error_grows_on_constant_input_witness :
    3600 * (1 / 1000 : ℚ) ^ 2 * 1
      ≤ |1 - PahlevaniFilter.new.constantOutput 1 (1 / 1000) (100000 + 1)| ∧
    3600 * (1 / 1000 : ℚ) ^ 2 * 1 * (1 + (100000 : ℕ) * (3600 * (1 / 1000 : ℚ) ^ 2))
      ≤ |1 - PahlevaniFilter.new.constantOutput 1 (1 / 1000) (100000 + 2)| :=
  filter_error_grows_on_constant_input 1 (1 / 1000) 100000 (by norm_num) (by norm_num)
    (by norm_num)

/-- The first returned values for `c = 1`: with `dt = 1/1000` the first call
returns 0.08484 and the second 0.1588821744; with `dt = 1/100` the first call
returns 0.8484 and the second 0.61701744, further from the input than the first. -/
theorem filter_trace_on_constant_input :
    PahlevaniFilter.new.constantOutput 1 (1 / 1000) 0 = 8484 / 100000 ∧
    PahlevaniFilter.new.constantOutput 1 (1 / 1000) 1 = 1588821744 / 10000000000 ∧
    PahlevaniFilter.new.constantOutput 1 (1 / 100) 0 = 8484 / 10000 ∧
    PahlevaniFilter.new.constantOutput 1 (1 / 100) 1 = 61701744 / 100000000 ∧
    |1 - PahlevaniFilter.new.constantOutput 1 (1 / 100) 0|
      < |1 - PahlevaniFilter.new.constantOutput 1 (1 / 100) 1| := by
  have e1 : PahlevaniFilter.new.constantOutput 1 (1 / 100) 0 = 8484 / 10000 := by
    norm_num [PahlevaniFilter.constantOutput, PahlevaniFilter.feedConstant,
      PahlevaniFilter.filter, PahlevaniFilter.new]
  have e2 : PahlevaniFilter.new.constantOutput 1 (1 / 100) 1 = 61701744 / 100000000 := by
    norm_num [PahlevaniFilter.constantOutput, PahlevaniFilter.feedConstant,
      PahlevaniFilter.filter, PahlevaniFilter.new]
  refine ⟨?_, ?_, e1, e2, ?_⟩
  · norm_num [PahlevaniFilter.constantOutput, PahlevaniFilter.feedConstant,
      PahlevaniFilter.filter, PahlevaniFilter.new]
  · norm_num [PahlevaniFilter.constantOutput, PahlevaniFilter.feedConstant,
      PahlevaniFilter.filter, PahlevaniFilter.new]
  · rw [e1, e2]
    norm_num [abs_of_pos]

/-- C9. Filter update rule: `filter(input, dt)` returns the new `theta[0]`, which is
`theta0 + (theta1 + 2*zeta*omega_n*error)*dt` with `error = input - theta0` taken
from the old `theta[0]`; the new `theta[1]` is `theta1 - omega_n^2*error*dt` with
that same error; `zeta` and `omega_n` are unchanged. -/
theorem filter_update_rule (f : PahlevaniFilter) (input dt : ℚ) :
    (f.filter input dt).1 =
      f.theta0 + (f.theta1 + 2 * f.zeta * f.omega_n * (input - f.theta0)) * dt ∧
    (f.filter input dt).2.theta0 = (f.filter input dt).1 ∧
    (f.filter input dt).2.theta1 = f.theta1 - f.omega_n ^ 2 * (input - f.theta0) * dt ∧
    (f.filter input dt).2.zeta = f.zeta ∧
    (f.filter input dt).2.omega_n = f.omega_n := by
  refine ⟨rfl, rfl, ?_, rfl, rfl⟩
  simp only [PahlevaniFilter.filter]
  ring

/-! ### The routing decision -/

/-- C8. Scenario: after `updateBelief("N1", true)` on a fresh store (so that
`knowsWhether("N1")` holds), a sample of value 22.0 whose type is not `"ALERT"`,
evaluated with a draw that denies admission (`draw % 100 >= 80`), gets
`shouldRoutePacket = false`; `bufferToFlash` of that sample into an empty buffer
leaves exactly one record, the sample, and `hasBufferedData()` is `true`. -/
theorem scenario_deferred_then_buffered (c : MuiseMeshController) (type : String)
    (draw : Nat) (d : SensorData) (htype : type ≠ "ALERT") (hdraw : 80 ≤ draw % 100)
    (hval : d.temperature = 22) :
    ((MuiseEpistemicKB.fresh.updateBelief "N1" true).knowsWhether "N1").1 = true ∧
    c.shouldRoutePacket type d.temperature draw = false ∧
    (SensorSim.new.bufferToFlash d).object.size = 1 ∧
    (SensorSim.new.bufferToFlash d).object.flashBuffer = [d] ∧
    (SensorSim.new.bufferToFlash d).object.hasBufferedData = true := by
  refine ⟨belief_known_after_update _ _ _, ?_, rfl, rfl, rfl⟩
  rw [hval]
  have h1 : ¬ ((22 : ℚ) > 35) := by norm_num
  have h2 : ¬ ((22 : ℚ) < 10) := by norm_num
  have h3 : ¬ (draw % 100 < 80) := by omega
  simp [MuiseMeshController.shouldRoutePacket, htype, h1, h2, h3]

/-- C8 at a controller named `NODE`, a `DATA` packet and the draw 99. -/
theorem scenario_deferred_then_buffered_witness :
    ((MuiseEpistemicKB.fresh.updateBelief "N1" true).knowsWhether "N1").1 = true ∧
    (MuiseMeshController.new "NODE").shouldRoutePacket "DATA"
      (SensorSim.sampleAt 22 0).temperature 99 = false ∧
    (SensorSim.new.bufferToFlash (SensorSim.sampleAt 22 0)).object.size = 1 ∧
    (SensorSim.new.bufferToFlash (SensorSim.sampleAt 22 0)).object.flashBuffer
      = [SensorSim.sampleAt 22 0] ∧
    (SensorSim.new.bufferToFlash (SensorSim.sampleAt 22 0)).object.hasBufferedData = true :=
  scenario_deferred_then_buffered (MuiseMeshController.new "NODE") "DATA" 99
    (SensorSim.sampleAt 22 0) (by decide) (by decide) rfl

/-- C10. Out-of-bounds hard trigger: for every packet type and every draw, a value
above 35.0 or below 10.0 makes `shouldRoutePacket` return `true`. -/
theorem out_of_bounds_trigger (c : MuiseMeshController) (type : String) (val : ℚ)
    (draw : Nat) (h : val > 35 ∨ val < 10) :
    c.shouldRoutePacket type val draw = true := by
  unfold MuiseMeshController.shouldRoutePacket
  rw [if_pos (Or.inr h)]

/-- C10 at a `DATA` packet of value 36 with a draw that would defer it. -/
theorem out_of_bounds_trigger_witness :
    (MuiseMeshController.new "NODE").shouldRoutePacket "DATA" 36 99 = true :=
  out_of_bounds_trigger (MuiseMeshController.new "NODE") "DATA" 36 99
    (Or.inl (by norm_num))

/-! ### The map and the belief store -/

theorem StdMap.find_assign_ne {V : Type} (m : StdMap V) (k j : String) (v : V)
    (hne : j ≠ k) : StdMap.find (StdMap.assign m k v) j = StdMap.find m j := by
  induction m with
  | nil => simp [StdMap.assign, StdMap.find, hne]
  | cons hd tl ih =>
    obtain ⟨k', v'⟩ := hd
    by_cases h1 : k = k'
    · subst h1
      simp [StdMap.assign, StdMap.find, hne]
    · by_cases h2 : k < k'
      · simp [StdMap.assign, StdMap.find, h1, h2, hne]
      · simp [StdMap.assign, StdMap.find, h1, h2, ih]

theorem StdMap.assign_assign {V : Type} (m : StdMap V) (k : String) (a b : V) :
    StdMap.assign (StdMap.assign m k a) k b = StdMap.assign m k b := by
  induction m with
  | nil => simp [StdMap.assign]
  | cons hd tl ih =>
    obtain ⟨k', v'⟩ := hd
    by_cases h1 : k = k'
    · simp [StdMap.assign, h1]
    · by_cases h2 : k < k'
      · simp [StdMap.assign, h1, h2]
      · simp [StdMap.assign, h1, h2, ih]

theorem StdMap.mem_keys_assign {V : Type} (m : StdMap V) (k j : String) (v : V) :
    j ∈ StdMap.keys (StdMap.assign m k v) ↔ j = k ∨ j ∈ StdMap.keys m := by
  induction m with
  | nil => simp [StdMap.assign, StdMap.keys]
  | cons hd tl ih =>
    obtain ⟨k', v'⟩ := hd
    have ih' : j ∈ List.map Prod.fst (StdMap.assign tl k v) ↔ j = k ∨ j ∈ List.map Prod.fst tl := ih
    by_cases h1 : k = k'
    · subst h1
      simp [StdMap.assign, StdMap.keys]
    · by_cases h2 : k < k'
      · simp [StdMap.assign, StdMap.keys, h1, h2]
      · simp only [StdMap.assign, StdMap.keys, h1, h2, if_false, List.map_cons, List.mem_cons, ih']
        tauto

theorem StdMap.sorted_keys_assign {V : Type} (m : StdMap V) (k : String) (v : V)
    (hs : (StdMap.keys m).Pairwise (fun a b => a < b)) :
    (StdMap.keys (StdMap.assign m k v)).Pairwise (fun a b => a < b) := by
  induction m with
  | nil => simp [StdMap.assign, StdMap.keys]
  | cons hd tl ih =>
    obtain ⟨k', v'⟩ := hd
    have hs' : (k' :: StdMap.keys tl).Pairwise (fun a b => a < b) := hs
    rw [List.pairwise_cons] at hs'
    obtain ⟨hhead, htail⟩ := hs'
    by_cases h1 : k = k'
    · subst h1
      simpa [StdMap.assign, StdMap.keys] using hs
    · by_cases h2 : k < k'
      · have hgoal : (k :: k' :: StdMap.keys tl).Pairwise (fun a b => a < b) := by
          refine List.pairwise_cons.mpr ⟨?_, hs⟩
          intro x hx
          rcases List.mem_cons.mp hx with rfl | hx
          · exact h2
          · exact lt_trans h2 (hhead x hx)
        simpa [StdMap.assign, StdMap.keys, h1, h2] using hgoal
      · have h3 : k' < k := lt_of_le_of_ne (not_lt.mp h2) (fun e => h1 e.symm)
        have hgoal : (k' :: StdMap.keys (StdMap.assign tl k v)).Pairwise (fun a b => a < b) := by
          refine List.pairwise_cons.mpr ⟨?_, ih htail⟩
          intro x hx
          rcases (StdMap.mem_keys_assign tl k x v).mp hx with rfl | hx
          · exact h3
          · exact hhead x hx
        simpa [StdMap.assign, StdMap.keys, h1, h2] using hgoal

theorem MuiseEpistemicKB.knowsWhether_object (kb : MuiseEpistemicKB) (id : String) :
    (kb.knowsWhether id).2 = kb := by
  unfold MuiseEpistemicKB.knowsWhether
  cases h : StdMap.find kb.beliefs id with
  | none => rfl
  | some b => simp [StdMap.index, h]

theorem MuiseEpistemicKB.knowsWhether_answer (kb : MuiseEpistemicKB) (id : String) :
    (kb.knowsWhether id).1 =
      match StdMap.find kb.beliefs id with
      | none => false
      | some b => b.knows := by
  unfold MuiseEpistemicKB.knowsWhether
  cases h : StdMap.find kb.beliefs id with
  | none => rfl
  | some b => simp [StdMap.index, h]

theorem MuiseEpistemicKB.step_keeps_known (kb : MuiseEpistemicKB)
    (c : MuiseEpistemicKB.Call) (id : String) (h : (kb.knowsWhether id).1 = true) :
    ((kb.step c).knowsWhether id).1 = true := by
  cases c with
  | query j =>
    simp only [MuiseEpistemicKB.step, MuiseEpistemicKB.knowsWhether_object]
    exact h
  | update j x =>
    by_cases hj : id = j
    · subst hj
      exact belief_known_after_update kb id x
    · rw [MuiseEpistemicKB.knowsWhether_answer] at h ⊢
      simp only [MuiseEpistemicKB.step, MuiseEpistemicKB.updateBelief]
      rw [StdMap.find_assign_ne _ _ _ _ hj]
      exact h

theorem MuiseEpistemicKB.run_keeps_known (cs : List MuiseEpistemicKB.Call) (id : String) :
    ∀ kb : MuiseEpistemicKB, (kb.knowsWhether id).1 = true →
      ((kb.run cs).knowsWhether id).1 = true := by
  induction cs with
  | nil => intro kb h; exact h
  | cons c cs ih =>
    intro kb h
    have hstep : kb.run (c :: cs) = (kb.step c).run cs := rfl
    rw [hstep]
    exact ih _ (MuiseEpistemicKB.step_keeps_known kb c id h)

theorem MuiseEpistemicKB.run_keys (cs : List MuiseEpistemicKB.Call) :
    ∀ kb : MuiseEpistemicKB, (StdMap.keys kb.beliefs).Pairwise (fun a b => a < b) →
      (StdMap.keys (kb.run cs).beliefs).Pairwise (fun a b => a < b) ∧
      ∀ j, j ∈ StdMap.keys (kb.run cs).beliefs ↔
        j ∈ StdMap.keys kb.beliefs ∨ j ∈ MuiseEpistemicKB.updatedIds cs := by
  induction cs with
  | nil =>
    intro kb hs
    exact ⟨hs, fun j => by simp [MuiseEpistemicKB.run, MuiseEpistemicKB.updatedIds]⟩
  | cons c cs ih =>
    intro kb hs
    have hstep : kb.run (c :: cs) = (kb.step c).run cs := rfl
    rw [hstep]
    cases c with
    | query i =>
      have hq : kb.step (MuiseEpistemicKB.Call.query i) = kb :=
        MuiseEpistemicKB.knowsWhether_object kb i
      rw [hq]
      exact ih kb hs
    | update i x =>
      have hs' : (StdMap.keys (kb.step (MuiseEpistemicKB.Call.update i x)).beliefs).Pairwise
          (fun a b => a < b) := StdMap.sorted_keys_assign _ _ _ hs
      obtain ⟨h1, h2⟩ := ih _ hs'
      refine ⟨h1, fun j => ?_⟩
      rw [h2 j]
      have hk : j ∈ StdMap.keys (kb.step (MuiseEpistemicKB.Call.update i x)).beliefs ↔
          j = i ∨ j ∈ StdMap.keys kb.beliefs := StdMap.mem_keys_assign _ _ _ _
      rw [hk]
      simp only [MuiseEpistemicKB.updatedIds, List.mem_cons]
      tauto

theorem MuiseEpistemicKB.run_fresh_size (cs : List MuiseEpistemicKB.Call) :
    (StdMap.keys (MuiseEpistemicKB.fresh.run cs).beliefs).Nodup ∧
    StdMap.size (MuiseEpistemicKB.fresh.run cs).beliefs =
      (MuiseEpistemicKB.updatedIds cs).dedup.length := by
  obtain ⟨h1, h2⟩ := MuiseEpistemicKB.run_keys cs MuiseEpistemicKB.fresh List.Pairwise.nil
  have hnodup : (StdMap.keys (MuiseEpistemicKB.fresh.run cs).beliefs).Nodup :=
    h1.imp (fun hab => ne_of_lt hab)
  refine ⟨hnodup, ?_⟩
  have hset : (StdMap.keys (MuiseEpistemicKB.fresh.run cs).beliefs).toFinset =
      (MuiseEpistemicKB.updatedIds cs).toFinset := by
    ext j
    simp only [List.mem_toFinset, h2 j]
    simp [MuiseEpistemicKB.fresh, StdMap.keys]
  have hlen : StdMap.size (MuiseEpistemicKB.fresh.run cs).beliefs =
      (StdMap.keys (MuiseEpistemicKB.fresh.run cs).beliefs).length := by
    simp [StdMap.size, StdMap.keys]
  rw [hlen, ← List.toFinset_card_of_nodup hnodup, hset, List.card_toFinset]

/-- C16. Link-quality threshold mapping: after `updateNeighborLink(id, rssi)` the
entry stored for `id` has `psr = 0.99` when `rssi > -80.0` and `psr = 0.65`
otherwise, so `rssi = -80.0` gives 0.65; an earlier entry for `id` is overwritten. -/
theorem link_quality_threshold (c : MuiseMeshController) (id : String) (rssi earlier : ℚ) :
    StdMap.find (c.updateNeighborLink id rssi).neighborTable id =
      some ⟨id, if rssi > -80 then 99 / 100 else 65 / 100, true⟩ ∧
    StdMap.find (c.updateNeighborLink id (-80)).neighborTable id =
      some ⟨id, 65 / 100, true⟩ ∧
    StdMap.find ((c.updateNeighborLink id earlier).updateNeighborLink id rssi).neighborTable id =
      some ⟨id, if rssi > -80 then 99 / 100 else 65 / 100, true⟩ := by
  refine ⟨?_, ?_, ?_⟩
  · simp only [MuiseMeshController.updateNeighborLink]
    exact StdMap.find_assign_self _ _ _
  · simp only [MuiseMeshController.updateNeighborLink]
    rw [StdMap.find_assign_self]
    norm_num
  · simp only [MuiseMeshController.updateNeighborLink]
    exact StdMap.find_assign_self _ _ _

/-- C17. The belief ledger never forgets: once `knowsWhether(id)` answers `true` it
answers `true` after any further sequence of `updateBelief` and `knowsWhether`
calls; and after any sequence of calls on a fresh store the keys are pairwise
distinct and the number of entries is the number of distinct ids passed to
`updateBelief`. -/
theorem ledger_never_forgets (kb : MuiseEpistemicKB) (later cs : List MuiseEpistemicKB.Call)
    (id : String) (h : (kb.knowsWhether id).1 = true) :
    ((kb.run later).knowsWhether id).1 = true ∧
    (StdMap.keys (MuiseEpistemicKB.fresh.run cs).beliefs).Nodup ∧
    StdMap.size (MuiseEpistemicKB.fresh.run cs).beliefs =
      (MuiseEpistemicKB.updatedIds cs).dedup.length :=
  ⟨MuiseEpistemicKB.run_keeps_known later id kb h, MuiseEpistemicKB.run_fresh_size cs⟩

/-- C17 at a store that has seen N1 go offline, followed by an update of N2, a
query of an unseen N3 and another update of N1. -/
theorem ledger_never_forgets_witness :
    (((MuiseEpistemicKB.fresh.updateBelief "N1" false).run
        [MuiseEpistemicKB.Call.update "N2" true, MuiseEpistemicKB.Call.query "N3",
          MuiseEpistemicKB.Call.update "N1" true]).knowsWhether "N1").1 = true ∧
    (StdMap.keys (MuiseEpistemicKB.fresh.run
        [MuiseEpistemicKB.Call.update "N1" false, MuiseEpistemicKB.Call.update "N2" true,
          MuiseEpistemicKB.Call.query "N3", MuiseEpistemicKB.Call.update "N1" true]).beliefs).Nodup ∧
    StdMap.size (MuiseEpistemicKB.fresh.run
        [MuiseEpistemicKB.Call.update "N1" false, MuiseEpistemicKB.Call.update "N2" true,
          MuiseEpistemicKB.Call.query "N3", MuiseEpistemicKB.Call.update "N1" true]).beliefs =
      (MuiseEpistemicKB.updatedIds
        [MuiseEpistemicKB.Call.update "N1" false, MuiseEpistemicKB.Call.update "N2" true,
          MuiseEpistemicKB.Call.query "N3", MuiseEpistemicKB.Call.update "N1" true]).dedup.length :=
  ledger_never_forgets (MuiseEpistemicKB.fresh.updateBelief "N1" false)
    [MuiseEpistemicKB.Call.update "N2" true, MuiseEpistemicKB.Call.query "N3",
      MuiseEpistemicKB.Call.update "N1" true]
    [MuiseEpistemicKB.Call.update "N1" false, MuiseEpistemicKB.Call.update "N2" true,
      MuiseEpistemicKB.Call.query "N3", MuiseEpistemicKB.Call.update "N1" true]
    "N1" (belief_known_after_update MuiseEpistemicKB.fresh "N1" false)

/-- C18. `updateBelief` is a last-write-wins upsert: `updateBelief(id, a)` followed
by `updateBelief(id, b)` leaves the same store as `updateBelief(id, b)` alone, the
entry of `id` then holds reachability `b` and `knows = true`, and applying
`updateBelief(id, a)` twice gives the same store as applying it once. -/
theorem updateBelief_last_write_wins (kb : MuiseEpistemicKB) (id : String) (a b : Bool) :
    (kb.updateBelief id a).updateBelief id b = kb.updateBelief id b ∧
    StdMap.find ((kb.updateBelief id a).updateBelief id b).beliefs id =
      some { val := b, knows := true } ∧
    (kb.updateBelief id a).updateBelief id a = kb.updateBelief id a := by
  refine ⟨?_, ?_, ?_⟩
  · simp only [MuiseEpistemicKB.updateBelief, StdMap.assign_assign]
  · simp only [MuiseEpistemicKB.updateBelief]
    exact StdMap.find_assign_self _ _ _
  · simp only [MuiseEpistemicKB.updateBelief, StdMap.assign_assign]

/-! ### The routing decision and the belief store -/

theorem MuiseMeshController.shouldRoutePacket_in_bounds (c : MuiseMeshController)
    (type : String) (val : ℚ) (draw : Nat) (htype : type ≠ "ALERT") (hlo : 10 ≤ val)
    (hhi : val ≤ 35) : c.shouldRoutePacket type val draw = decide (draw % 100 < 80) := by
  unfold MuiseMeshController.shouldRoutePacket
  have hcond : ¬ (type = "ALERT" ∨ val > 35 ∨ val < 10) := by
    rintro (h | h | h)
    · exact htype h
    · exact absurd hhi (not_le.mpr h)
    · exact absurd hlo (not_le.mpr h)
  rw [if_neg hcond]

/-- C11, as stated, fails: a fresh store does not know whether N1 is reachable, and
a store that has recorded N1 as unreachable holds that state, yet a `DATA` sample
of value 22.0 with the draw 0 is dispatched. -/
theorem connectivity_gate_is_absent :
    (MuiseEpistemicKB.fresh.knowsWhether "N1").1 = false ∧
    StdMap.find (MuiseEpistemicKB.fresh.updateBelief "N1" false).beliefs "N1" =
      some { val := false, knows := true } ∧
    (MuiseMeshController.new "NODE").shouldRoutePacket "DATA" 22 0 = true := by
  refine ⟨rfl, StdMap.find_assign_self _ _ _, ?_⟩
  rw [MuiseMeshController.shouldRoutePacket_in_bounds _ _ _ _ (by decide) (by norm_num)
    (by norm_num)]
  decide

/-- C11, amended. `shouldRoutePacket` reads no belief: for every sample that hits
no hard trigger, also when the belief store does not know whether the target is
reachable or has recorded it as unreachable, the decision is the same for every
controller and is dispatch exactly when `draw % 100 < 80`. -/
theorem routing_ignores_connectivity (c c' : MuiseMeshController) (kb : MuiseEpistemicKB)
    (target type : String) (val : ℚ) (draw : Nat) (htype : type ≠ "ALERT")
    (hlo : 10 ≤ val) (hhi : val ≤ 35)
    (_hlink : (kb.knowsWhether target).1 = false ∨
      ∃ b, StdMap.find kb.beliefs target = some b ∧ b.val = false) :
    c.shouldRoutePacket type val draw = c'.shouldRoutePacket type val draw ∧
    (c.shouldRoutePacket type val draw = true ↔ draw % 100 < 80) := by
  rw [MuiseMeshController.shouldRoutePacket_in_bounds c type val draw htype hlo hhi,
    MuiseMeshController.shouldRoutePacket_in_bounds c' type val draw htype hlo hhi]
  exact ⟨rfl, decide_eq_true_iff⟩

/-- C11, amended, at a fresh store that has never seen N1, two controllers and a
sample of value 22.0 with the draw 0. -/
theorem routing_ignores_connectivity_witness :
    (MuiseMeshController.new "A").shouldRoutePacket "DATA" 22 0 =
      ((MuiseMeshController.new "B").updateNeighborLink "N1" (-90)).shouldRoutePacket
        "DATA" 22 0 ∧
    ((MuiseMeshController.new "A").shouldRoutePacket "DATA" 22 0 = true ↔ 0 % 100 < 80) :=
  routing_ignores_connectivity (MuiseMeshController.new "A")
    ((MuiseMeshController.new "B").updateNeighborLink "N1" (-90)) MuiseEpistemicKB.fresh
    "N1" "DATA" 22 0 (by decide) (by norm_num) (by norm_num) (Or.inl rfl)

/-- C12. Stochastic admission at 80%: for a sample that hits no hard trigger (type
not `"ALERT"`, `10.0 <= val <= 35.0`, bounds included) `shouldRoutePacket` is
`true` exactly when `draw % 100 < 80`; of the 100 residues, 80 admit and 20 defer. -/
theorem stochastic_admission (c : MuiseMeshController) (type : String) (val : ℚ)
    (htype : type ≠ "ALERT") (hlo : 10 ≤ val) (hhi : val ≤ 35) :
    (∀ draw : Nat, c.shouldRoutePacket type val draw = true ↔ draw % 100 < 80) ∧
    ((List.range 100).filter (fun r => c.shouldRoutePacket type val r)).length = 80 ∧
    ((List.range 100).filter (fun r => !c.shouldRoutePacket type val r)).length = 20 := by
  have hfun : (fun r => c.shouldRoutePacket type val r) = fun r => decide (r % 100 < 80) :=
    funext fun r => MuiseMeshController.shouldRoutePacket_in_bounds c type val r htype hlo hhi
  have hnot : (fun r => !c.shouldRoutePacket type val r) = fun r => !decide (r % 100 < 80) :=
    funext fun r => by
      rw [MuiseMeshController.shouldRoutePacket_in_bounds c type val r htype hlo hhi]
  refine ⟨fun draw => ?_, ?_, ?_⟩
  · rw [MuiseMeshController.shouldRoutePacket_in_bounds c type val draw htype hlo hhi]
    exact decide_eq_true_iff
  · rw [hfun]; decide
  · rw [hnot]; decide

/-- C12 at the bounds themselves: a `DATA` sample of value 10.0. -/
theorem stochastic_admission_witness :
    (∀ draw : Nat,
      (MuiseMeshController.new "NODE").shouldRoutePacket "DATA" 10 draw = true
        ↔ draw % 100 < 80) ∧
    ((List.range 100).filter
      (fun r => (MuiseMeshController.new "NODE").shouldRoutePacket "DATA" 10 r)).length = 80 ∧
    ((List.range 100).filter
      (fun r => !(MuiseMeshController.new "NODE").shouldRoutePacket "DATA" 10 r)).length = 20 :=
  stochastic_admission (MuiseMeshController.new "NODE") "DATA" 10 (by decide) (by norm_num)
    (by norm_num)

/-! ### The buffer at its limits -/

/-- C13. Reject-new overflow policy: on a buffer that holds exactly `MAX_BUFFER`
records `bufferToFlash` leaves the object, contents and order, unchanged; on a
buffer that holds fewer it appends the record at the end and changes nothing else. -/
theorem reject_new_when_full (full s : SensorSim) (d : SensorData)
    (hfull : full.size = SensorSim.MAX_BUFFER) (hroom : s.size < SensorSim.MAX_BUFFER) :
    (full.bufferToFlash d).object = full ∧
    (s.bufferToFlash d).object.flashBuffer = s.flashBuffer ++ [d] := by
  rw [SensorSim.bufferToFlash_object, SensorSim.bufferToFlash_object]
  have h1 : ¬ full.flashBuffer.length < SensorSim.MAX_BUFFER := by
    have : full.flashBuffer.length = SensorSim.MAX_BUFFER := hfull
    omega
  have h2 : s.flashBuffer.length < SensorSim.MAX_BUFFER := hroom
  rw [if_neg h1, if_pos h2]
  exact ⟨rfl, rfl⟩

/-- C13 at a buffer of `MAX_BUFFER` copies of one record, and at a buffer of one
record, each offered another record. -/
theorem reject_new_when_full_witness :
    ((SensorSim.mk (List.replicate SensorSim.MAX_BUFFER (SensorSim.sampleAt 22 0))).bufferToFlash
        (SensorSim.sampleAt 23 1)).object =
      SensorSim.mk (List.replicate SensorSim.MAX_BUFFER (SensorSim.sampleAt 22 0)) ∧
    ((SensorSim.mk [SensorSim.sampleAt 22 0]).bufferToFlash (SensorSim.sampleAt 23 1)).object.flashBuffer
      = [SensorSim.sampleAt 22 0] ++ [SensorSim.sampleAt 23 1] :=
  reject_new_when_full
    (SensorSim.mk (List.replicate SensorSim.MAX_BUFFER (SensorSim.sampleAt 22 0)))
    (SensorSim.mk [SensorSim.sampleAt 22 0]) (SensorSim.sampleAt 23 1)
    (List.length_replicate _ _) (by decide)

/-- C14, as stated, fails: on the empty buffer `hasBufferedData()` is `false` and
`popBufferedData()` has no defined outcome at all (`front()` of an empty vector):
there is no returned value and no object left behind. -/
theorem pop_on_empty_is_undefined :
    SensorSim.new.hasBufferedData = false ∧
    ¬ ∃ outcome : SensorData × SensorSim, SensorSim.new.popBufferedData = some outcome := by
  refine ⟨rfl, ?_⟩
  rintro ⟨outcome, h⟩
  exact Option.noConfusion h

/-- C14, amended. `popBufferedData()` has a defined outcome exactly in the states
where `hasBufferedData()` is `true`; the outcome is then the front record and the
object that holds the remaining records in order. -/
theorem pop_defined_iff_has_data (s : SensorSim) :
    s.popBufferedData.isSome = s.hasBufferedData ∧
    (∀ (d : SensorData) (s' : SensorSim), s.popBufferedData = some (d, s') →
      s.hasBufferedData = true ∧ s.flashBuffer = d :: s'.flashBuffer) := by
  obtain ⟨buf⟩ := s
  cases buf with
  | nil =>
    refine ⟨rfl, fun d s' h => ?_⟩
    exact Option.noConfusion h
  | cons x rest =>
    refine ⟨rfl, fun d s' h => ?_⟩
    simp only [SensorSim.popBufferedData, Option.some.injEq, Prod.mk.injEq] at h
    obtain ⟨hd, hs⟩ := h
    subst hd
    subst hs
    exact ⟨rfl, rfl⟩

/-! ### The power manager -/

/-- C15, as stated, fails: depleting the initial 3.8 V cell for 1000 h leaves 2.8 V,
below the 3.0 V reference, and `getBatteryPercent()` is then `-50/3`, not 0; at
5 V it is `500/3`, not 100. -/
theorem battery_percent_is_not_clamped :
    (PowerManager.new.simulateChargeDepletion 1000).batteryVoltage = 28 / 10 ∧
    (PowerManager.new.simulateChargeDepletion 1000).getBatteryPercent = -50 / 3 ∧
    (PowerManager.mk PowerState.SYSTEM_ON_LP 5).getBatteryPercent = 500 / 3 := by
  refine ⟨?_, ?_, ?_⟩ <;>
    norm_num [PowerManager.new, PowerManager.simulateChargeDepletion,
      PowerManager.getBatteryPercent]

/-- C15, amended. For every stored voltage `v`, `getBatteryPercent()` is
`(v - 3.0) / (4.2 - 3.0) * 100` with no clamp: it lies in `[0, 100]` exactly when
`3.0 <= v <= 4.2`, is negative exactly when `v < 3.0` and exceeds 100 exactly when
`v > 4.2`. -/
theorem battery_percent_is_linear (p : PowerManager) :
    p.getBatteryPercent = (p.batteryVoltage - 3) / (42 / 10 - 3) * 100 ∧
    ((0 ≤ p.getBatteryPercent ∧ p.getBatteryPercent ≤ 100) ↔
      (3 ≤ p.batteryVoltage ∧ p.batteryVoltage ≤ 42 / 10)) ∧
    (p.getBatteryPercent < 0 ↔ p.batteryVoltage < 3) ∧
    (100 < p.getBatteryPercent ↔ 42 / 10 < p.batteryVoltage) := by
  have hform : p.getBatteryPercent = (p.batteryVoltage - 3) * (250 / 3) := by
    unfold PowerManager.getBatteryPercent
    ring
  refine ⟨rfl, ?_, ?_, ?_⟩
  · rw [hform]
    constructor
    · rintro ⟨h1, h2⟩
      constructor <;> linarith
    · rintro ⟨h1, h2⟩
      constructor <;> linarith
  · rw [hform]
    constructor <;> intro h <;> linarith
  · rw [hform]
    constructor <;> intro h <;> linarith

/-- C19, as stated, fails: from the same 3.8 V, ten hours in `ACTIVE_RADIO` and ten
hours in `SYSTEM_OFF` (deep sleep) cost the same voltage, 0.01 V: the radio state
does not lose more. -/
theorem depletion_ignores_power_state :
    PowerManager.new.batteryVoltage -
        ((PowerManager.new.enterState PowerState.ACTIVE_RADIO).simulateChargeDepletion
          10).batteryVoltage = 1 / 100 ∧
    PowerManager.new.batteryVoltage -
        ((PowerManager.new.enterState PowerState.SYSTEM_OFF).simulateChargeDepletion
          10).batteryVoltage = 1 / 100 ∧
    ¬ (PowerManager.new.batteryVoltage -
        ((PowerManager.new.enterState PowerState.SYSTEM_OFF).simulateChargeDepletion
          10).batteryVoltage
      < PowerManager.new.batteryVoltage -
        ((PowerManager.new.enterState PowerState.ACTIVE_RADIO).simulateChargeDepletion
          10).batteryVoltage) := by
  refine ⟨?_, ?_, ?_⟩ <;>
    norm_num [PowerManager.new, PowerManager.simulateChargeDepletion, PowerManager.enterState]

/-- C19, amended. Depletion subtracts 0.001 V per elapsed hour from the battery
voltage whatever the power state is, so two managers with the same voltage lose the
same amount in any two states; the nominal currents (2.5 uA, 15 uA, 0.9 uA, 8.5 mA)
are what `enterState` computes for its log line. -/
theorem depletion_is_state_independent (p : PowerManager) (s s' : PowerState) (t : ℚ) :
    (p.simulateChargeDepletion t).batteryVoltage = p.batteryVoltage - t / 1000 ∧
    ((p.enterState s).simulateChargeDepletion t).batteryVoltage =
      ((p.enterState s').simulateChargeDepletion t).batteryVoltage ∧
    PowerManager.currentDraw PowerState.SYSTEM_ON_LP = 25 / 10000000 ∧
    PowerManager.currentDraw PowerState.SYSTEM_ON_CL = 15 / 1000000 ∧
    PowerManager.currentDraw PowerState.SYSTEM_OFF = 9 / 10000000 ∧
    PowerManager.currentDraw PowerState.ACTIVE_RADIO = 85 / 10000 := by
  refine ⟨?_, rfl, rfl, rfl, rfl, rfl⟩
  simp only [PowerManager.simulateChargeDepletion]
  ring

/-- C20. Power transitions are total and touch only the state: in every state and
for every requested state `s`, `enterState(s)` makes `s` the current state and
leaves the battery voltage unchanged, so every state is reached from every other in
one step; `simulateChargeDepletion` leaves the current state unchanged. -/
theorem power_transitions_are_total (p : PowerManager) (s : PowerState) (hours : ℚ) :
    (p.enterState s).currentState = s ∧
    (p.enterState s).batteryVoltage = p.batteryVoltage ∧
    (p.simulateChargeDepletion hours).currentState = p.currentState :=
  ⟨rfl, rfl, rfl⟩

/-! ### Locality of updates and read-only queries -/

/-- C21. Belief updates are local and queries are read-only: for ids `i != j`,
`updateBelief(i, x)` leaves the stored entry of `j` and the answer of
`knowsWhether(j)` unchanged; `knowsWhether(j)` leaves the store as it was, so the
number of entries is unchanged and a second query gives the same answer; on a
store with no entry for `j` the query answers `false`, creates no entry and
answers `false` again. -/
theorem updates_local_queries_read_only (kb : MuiseEpistemicKB) (i j : String) (x : Bool)
    (hne : i ≠ j) :
    StdMap.find (kb.updateBelief i x).beliefs j = StdMap.find kb.beliefs j ∧
    ((kb.updateBelief i x).knowsWhether j).1 = (kb.knowsWhether j).1 ∧
    (kb.knowsWhether j).2 = kb ∧
    StdMap.size (kb.knowsWhether j).2.beliefs = StdMap.size kb.beliefs ∧
    ((kb.knowsWhether j).2.knowsWhether j).1 = (kb.knowsWhether j).1 ∧
    (StdMap.find kb.beliefs j = none →
      (kb.knowsWhether j).1 = false ∧
      StdMap.find (kb.knowsWhether j).2.beliefs j = none ∧
      ((kb.knowsWhether j).2.knowsWhether j).1 = false) := by
  have hfind : StdMap.find (kb.updateBelief i x).beliefs j = StdMap.find kb.beliefs j :=
    StdMap.find_assign_ne kb.beliefs i j _ (fun e => hne e.symm)
  have hobj : (kb.knowsWhether j).2 = kb := MuiseEpistemicKB.knowsWhether_object kb j
  refine ⟨hfind, ?_, hobj, ?_, ?_, ?_⟩
  · rw [MuiseEpistemicKB.knowsWhether_answer, MuiseEpistemicKB.knowsWhether_answer, hfind]
  · rw [hobj]
  · rw [hobj]
  · intro hnone
    have hfalse : (kb.knowsWhether j).1 = false := by
      rw [MuiseEpistemicKB.knowsWhether_answer, hnone]
    rw [hobj]
    exact ⟨hfalse, hnone, hfalse⟩

/-- C21 at a store that has seen only N1: an update of N2 leaves N1 as it was, and
a query of N1 leaves the store as it was. -/
theorem updates_local_queries_read_only_witness :
    StdMap.find ((MuiseEpistemicKB.fresh.updateBelief "N1" true).updateBelief "N2" false).beliefs
        "N1" = StdMap.find (MuiseEpistemicKB.fresh.updateBelief "N1" true).beliefs "N1" ∧
    (((MuiseEpistemicKB.fresh.updateBelief "N1" true).updateBelief "N2" false).knowsWhether
        "N1").1 = ((MuiseEpistemicKB.fresh.updateBelief "N1" true).knowsWhether "N1").1 ∧
    ((MuiseEpistemicKB.fresh.updateBelief "N1" true).knowsWhether "N1").2 =
      MuiseEpistemicKB.fresh.updateBelief "N1" true ∧
    StdMap.size ((MuiseEpistemicKB.fresh.updateBelief "N1" true).knowsWhether "N1").2.beliefs =
      StdMap.size (MuiseEpistemicKB.fresh.updateBelief "N1" true).beliefs ∧
    ((((MuiseEpistemicKB.fresh.updateBelief "N1" true).knowsWhether "N1").2).knowsWhether
        "N1").1 = ((MuiseEpistemicKB.fresh.updateBelief "N1" true).knowsWhether "N1").1 ∧
    (StdMap.find (MuiseEpistemicKB.fresh.updateBelief "N1" true).beliefs "N1" = none →
      ((MuiseEpistemicKB.fresh.updateBelief "N1" true).knowsWhether "N1").1 = false ∧
      StdMap.find ((MuiseEpistemicKB.fresh.updateBelief "N1" true).knowsWhether "N1").2.beliefs
        "N1" = none ∧
      ((((MuiseEpistemicKB.fresh.updateBelief "N1" true).knowsWhether "N1").2).knowsWhether
        "N1").1 = false) :=
  updates_local_queries_read_only (MuiseEpistemicKB.fresh.updateBelief "N1" true) "N2" "N1"
    false (by decide)

/-- A query of a never-observed id on a fresh store: the answer is `false`, the
store is still the fresh one with no entry, and the next query answers `false`. -/
theorem query_of_unseen_id_creates_no_entry (j : String) :
    MuiseEpistemicKB.fresh.knowsWhether j = (false, MuiseEpistemicKB.fresh) ∧
    StdMap.size (MuiseEpistemicKB.fresh.knowsWhether j).2.beliefs = 0 ∧
    ((MuiseEpistemicKB.fresh.knowsWhether j).2.knowsWhether j).1 = false :=
  ⟨rfl, rfl, rfl⟩

end StrawberryFarm
